import Mathlib

/-!
Shallow embedding of `src/strtoi_generic.h` (strtoi_generic / strtoi_base_generic /
strtoi_generic_func) together with the C library routines it calls (`strtoll`,
`strtoull` with glibc/POSIX semantics) and the `_Generic` type-dispatch macros
(`STRTOI_GENERIC_TYPENAME`, `STRTOI_GENERIC_INTMIN`, `STRTOI_GENERIC_INTMAX`).

Conventions of the embedding:
- C strings are `List Char` (the NUL terminator is the end of the list).
- Machine integers are `Int` / `Nat` with explicit wrapping where the C code
  casts; platform constants are those of Linux x86-64 (LP64, glibc):
  `EINVAL = 22`, `ERANGE = 34`, `ENOTSUP = 95`, `char` is 8-bit signed,
  `short` 16-bit, `int` 32-bit, `long` and `long long` 64-bit.
- `strtoll` / `strtoull` are modelled per C11/POSIX as implemented by glibc:
  skip C-locale whitespace, one optional sign, base-prefix handling
  (`0x`/`0X` for base 16 or 0, leading `0` selects octal for base 0), digit
  accumulation, clamping with `errno = ERANGE` on 64-bit overflow, and
  `errno = EINVAL` with `endptr = nptr` for an unsupported base.  The result
  records the returned value, whether any digits were converted
  (`endptr != nptr`), the characters after `endptr`, and `errno`.
-/

/-- C-locale `isspace`: space, tab, newline, vertical tab, form feed,
carriage return. -/
def isSpaceC (c : Char) : Bool :=
  decide (c.toNat = 32 ∨ (9 ≤ c.toNat ∧ c.toNat ≤ 13))

/-- Value of a character as a digit, as `strtol`-family functions accept them:
`0`-`9`, then `a`-`z` / `A`-`Z` for 10..35. -/
def digitVal (c : Char) : Option Nat :=
  if 48 ≤ c.toNat ∧ c.toNat ≤ 57 then some (c.toNat - 48)
  else if 97 ≤ c.toNat ∧ c.toNat ≤ 122 then some (c.toNat - 97 + 10)
  else if 65 ≤ c.toNat ∧ c.toNat ≤ 90 then some (c.toNat - 65 + 10)
  else none

/-- Whether `c` is a valid digit for base `b`. -/
def isValidDigit (b : Nat) (c : Char) : Bool :=
  match digitVal c with
  | some v => decide (v < b)
  | none => false

/-- Skip leading C-locale whitespace, as the `strtol` family does. -/
def skipWs : List Char → List Char
  | [] => []
  | c :: cs => if isSpaceC c then skipWs cs else c :: cs

/-- Consume one optional sign character; returns the negation flag and the
remaining characters. -/
def takeSign : List Char → Bool × List Char
  | [] => (false, [])
  | c :: cs =>
    if c = '-' then (true, cs)
    else if c = '+' then (false, cs)
    else (false, c :: cs)

/-- Whether the text starts with a hexadecimal prefix that `strtol`-family
functions consume: `0x`/`0X` followed by a hexadecimal digit. -/
def hexHeaded : List Char → Bool
  | c0 :: c1 :: c2 :: _ => (c0 == '0') && (c1 == 'x' || c1 == 'X') && isValidDigit 16 c2
  | _ => false

/-- Whether the first character is `0` (base-0 octal detection). -/
def headIsZero : List Char → Bool
  | c :: _ => c == '0'
  | [] => false

/-- Effective base and remaining text after prefix handling: `0x`/`0X` is
consumed for base 16 or 0 (when followed by a hex digit), a leading `0`
selects base 8 for base 0, otherwise base 0 means decimal. -/
def resolveBase (b : Nat) (cs : List Char) : Nat × List Char :=
  if (b = 16 ∨ b = 0) ∧ hexHeaded cs = true then (16, cs.drop 2)
  else if b = 0 then (if headIsZero cs = true then (8, cs) else (10, cs))
  else (b, cs)

/-- Greedily consume digits valid for base `b`, accumulating
`acc * b + digit`; returns the accumulated magnitude, the number of digits
consumed, and the remaining characters. -/
def parseDigits (b : Nat) : List Char → Nat → Nat × Nat × List Char
  | [], acc => (acc, 0, [])
  | c :: cs, acc =>
    match digitVal c with
    | some v =>
      if v < b then
        let r := parseDigits b cs (acc * b + v)
        (r.1, r.2.1 + 1, r.2.2)
      else (acc, 0, c :: cs)
    | none => (acc, 0, c :: cs)

/-- The `errno` values the modelled calls can leave behind (`0` / `ERANGE` /
`EINVAL`). -/
inductive CErrno where
  | ok
  | erange
  | einval
  deriving DecidableEq

/-- Outcome of a modelled `strtoll`/`strtoull` call: the returned value
(`ret`), whether any digits were converted (`endptr != nptr`), the characters
at and after `endptr` when digits were converted (the original string
otherwise), and `errno`. -/
structure CStrtoResult where
  ret : Int
  consumed : Bool
  rest : List Char
  errno : CErrno
  deriving DecidableEq

/-- `ULLONG_MAX` = 2^64 - 1. -/
def ULLONG_MAX : Nat := 18446744073709551615

/-- `LLONG_MAX` = 2^63 - 1. -/
def LLONG_MAX : Int := 9223372036854775807

/-- `LLONG_MIN` = -2^63. -/
def LLONG_MIN : Int := -9223372036854775808

/-- `strtoull(s, &endptr, base)` per C11/POSIX/glibc.  The returned `ret`
field holds the `unsigned long long` return value embedded in `[0, 2^64)`.
A leading `-` negates the converted magnitude modulo 2^64; a magnitude above
`ULLONG_MAX` yields `ULLONG_MAX` with `errno = ERANGE`; an unsupported base
yields `0` with `errno = EINVAL` and no characters consumed. -/
def strtoull (s : List Char) (base : Int) : CStrtoResult :=
  if base ≠ 0 ∧ (base < 2 ∨ base > 36) then ⟨0, false, s, CErrno.einval⟩
  else
    let st := takeSign (skipWs s)
    let rb := resolveBase base.toNat st.2
    let pd := parseDigits rb.1 rb.2 0
    if pd.2.1 = 0 then ⟨0, false, s, CErrno.ok⟩
    else if ULLONG_MAX < pd.1 then ⟨(ULLONG_MAX : Int), true, pd.2.2, CErrno.erange⟩
    else if st.1 then ⟨((18446744073709551616 - pd.1) % 18446744073709551616 : Nat), true, pd.2.2, CErrno.ok⟩
    else ⟨(pd.1 : Int), true, pd.2.2, CErrno.ok⟩

/-- `strtoll(s, &endptr, base)` per C11/POSIX/glibc.  Overflow clamps to
`LLONG_MAX` / `LLONG_MIN` with `errno = ERANGE`; an unsupported base yields
`0` with `errno = EINVAL` and no characters consumed. -/
def strtoll (s : List Char) (base : Int) : CStrtoResult :=
  if base ≠ 0 ∧ (base < 2 ∨ base > 36) then ⟨0, false, s, CErrno.einval⟩
  else
    let st := takeSign (skipWs s)
    let rb := resolveBase base.toNat st.2
    let pd := parseDigits rb.1 rb.2 0
    if pd.2.1 = 0 then ⟨0, false, s, CErrno.ok⟩
    else if st.1 then
      if 9223372036854775808 < pd.1 then ⟨LLONG_MIN, true, pd.2.2, CErrno.erange⟩
      else ⟨-(pd.1 : Int), true, pd.2.2, CErrno.ok⟩
    else
      if 9223372036854775807 < pd.1 then ⟨LLONG_MAX, true, pd.2.2, CErrno.erange⟩
      else ⟨(pd.1 : Int), true, pd.2.2, CErrno.ok⟩

/-- The destination types the `_Generic` dispatch can see.  `char` is the
plain (unqualified) character type, distinct in C from both `signed char`
and `unsigned char`; `other` stands for any type matched only by the
`default:` association. -/
inductive CType where
  | char
  | schar
  | sshort
  | sint
  | slong
  | sllong
  | uchar
  | ushort
  | uint
  | ulong
  | ullong
  | other
  deriving DecidableEq

/-- `STRTOI_GENERIC_TYPENAME(x)` from lines 49-60: the enum value for the
type of `x`.  `STRTOI_GENERIC_TYPENAME_SIGNED_CHAR = 2` .. `_SIGNED_LONG_LONG
= 6`; unsigned types start right after `STRTOI_GENERIC_TYPENAME_UNSIGNED =
SCHAR_MAX = 127`.  Plain `char` and unlisted types fall to `default:` =
`STRTOI_GENERIC_TYPENAME_OTHER = 0`. -/
def STRTOI_GENERIC_TYPENAME : CType → Nat
  | CType.schar => 2
  | CType.sshort => 3
  | CType.sint => 4
  | CType.slong => 5
  | CType.sllong => 6
  | CType.uchar => 128
  | CType.ushort => 129
  | CType.uint => 130
  | CType.ulong => 131
  | CType.ullong => 132
  | CType.char => 0
  | CType.other => 0

/-- `STRTOI_GENERIC_TYPENAME_UNSIGNED` = `SCHAR_MAX` = 127. -/
def STRTOI_GENERIC_TYPENAME_UNSIGNED : Nat := 127

/-- `STRTOI_GENERIC_INTMIN(x)` from lines 62-76, as `long long` (LP64,
signed `char`). -/
def STRTOI_GENERIC_INTMIN : CType → Int
  | CType.char => -128
  | CType.schar => -128
  | CType.sshort => -32768
  | CType.sint => -2147483648
  | CType.slong => -9223372036854775808
  | CType.sllong => -9223372036854775808
  | CType.uchar => 0
  | CType.ushort => 0
  | CType.uint => 0
  | CType.ulong => 0
  | CType.ullong => 0
  | CType.other => 0

/-- `STRTOI_GENERIC_INTMAX(x)` from lines 78-92, as `unsigned long long`
(LP64, signed `char`). -/
def STRTOI_GENERIC_INTMAX : CType → Nat
  | CType.char => 127
  | CType.schar => 127
  | CType.sshort => 32767
  | CType.sint => 2147483647
  | CType.slong => 9223372036854775807
  | CType.sllong => 9223372036854775807
  | CType.uchar => 255
  | CType.ushort => 65535
  | CType.uint => 4294967295
  | CType.ulong => 18446744073709551615
  | CType.ullong => 18446744073709551615
  | CType.other => 0

/-- `ENOTSUP` (Linux: 95). -/
def ENOTSUP : Int := 95

/-- `EINVAL` (Linux: 22). -/
def EINVAL : Int := 22

/-- `ERANGE` (Linux: 34). -/
def ERANGE : Int := 34

/-- The C cast `(long long)` applied to an `unsigned long long` value:
reduce modulo 2^64 and re-centre into `[-2^63, 2^63)`. -/
def toLL (v : Int) : Int :=
  if v % 18446744073709551616 < 9223372036854775808 then v % 18446744073709551616
  else v % 18446744073709551616 - 18446744073709551616

/-- The C cast `(unsigned long long)` applied to a `long long` value:
reduce modulo 2^64 into `[0, 2^64)`. -/
def toULL (v : Int) : Nat :=
  (v % 18446744073709551616).toNat

/-- `strchr(s, '-') != NULL`: whether `s` contains a `-` character. -/
def hasMinus : List Char → Bool
  | [] => false
  | c :: cs => if c = '-' then true else hasMinus cs

/-- The parser selection of lines 109-112: unsigned destination enum values
(`type > STRTOI_GENERIC_TYPENAME_UNSIGNED`) use `strtoull`, the rest
`strtoll`. -/
def selRaw (type : Nat) (s : List Char) (base : Int) : CStrtoResult :=
  if STRTOI_GENERIC_TYPENAME_UNSIGNED < type then strtoull s base else strtoll s base

/-- Outcome of `strtoi_generic_func`: the returned `int` and the value
written through `num` (`none` when the call returns without writing). -/
structure FuncResult where
  ret : Int
  num : Option Int
  deriving DecidableEq

/-- `strtoi_generic_func` from lines 94-133 of `src/strtoi_generic.h`. -/
def strtoi_generic_func (str : List Char) (mn : Int) (mx : Nat)
    (type : Nat) (base : Int) : FuncResult :=
  if type = 0 then ⟨-ENOTSUP, none⟩
  else
    let u := selRaw type str base
    let r : Int := if STRTOI_GENERIC_TYPENAME_UNSIGNED < type then toLL u.ret else u.ret
    if u.consumed = false ∨ u.rest ≠ [] ∨ u.errno = CErrno.einval then ⟨-EINVAL, none⟩
    else if u.errno = CErrno.erange then ⟨-ERANGE, none⟩
    else if STRTOI_GENERIC_TYPENAME_UNSIGNED < type then
      if hasMinus str = true ∨ mx < toULL r then ⟨-ERANGE, none⟩
      else ⟨0, some r⟩
    else if r < mn ∨ (0 < r ∧ mx < toULL r) then ⟨-ERANGE, none⟩
    else ⟨0, some r⟩

/-- Wrap an `Int` into an unsigned type of modulus `m` (C narrowing cast). -/
def wrapU (m : Int) (v : Int) : Int := v % m

/-- Wrap an `Int` into a signed type of modulus `m` (C narrowing cast as gcc
defines it: reduce modulo `m`, re-centre into `[-m/2, m/2)`). -/
def wrapS (m : Int) (v : Int) : Int :=
  if v % m < m / 2 then v % m else v % m - m

/-- The cast `(typeof(*_res))num` of line 176 for each destination type. -/
def castTo : CType → Int → Int
  | CType.char => wrapS 256
  | CType.schar => wrapS 256
  | CType.sshort => wrapS 65536
  | CType.sint => wrapS 4294967296
  | CType.slong => wrapS 18446744073709551616
  | CType.sllong => wrapS 18446744073709551616
  | CType.uchar => wrapU 256
  | CType.ushort => wrapU 65536
  | CType.uint => wrapU 4294967296
  | CType.ulong => wrapU 18446744073709551616
  | CType.ullong => wrapU 18446744073709551616
  | CType.other => id

/-- The `strtoi_base_generic` macro from lines 160-179: run
`strtoi_generic_func` with the dispatch-derived min/max/typename, and store
the cast result through `res` when the return value is `>= 0`.  The model
returns the pair (return value, final value of `*res`). -/
def strtoi_base_generic (str : List Char) (base : Int) (t : CType)
    (res : Int) : Int × Int :=
  let r := strtoi_generic_func str (STRTOI_GENERIC_INTMIN t)
    (STRTOI_GENERIC_INTMAX t) (STRTOI_GENERIC_TYPENAME t) base
  if 0 ≤ r.ret then (r.ret, castTo t (r.num.getD 0)) else (r.ret, res)

/-- The `strtoi_generic` macro from lines 205-206: `strtoi_base_generic`
with base 0. -/
def strtoi_generic (str : List Char) (t : CType) (res : Int) : Int × Int :=
  strtoi_base_generic str 0 t res

/-- Whether the `_Generic` dispatch recognises the destination type
(typename is not `STRTOI_GENERIC_TYPENAME_OTHER`). -/
def isSupported (t : CType) : Bool :=
  decide (STRTOI_GENERIC_TYPENAME t ≠ 0)

/-- Whether the destination type is dispatched to the unsigned parser. -/
def isUnsignedType (t : CType) : Bool :=
  decide (STRTOI_GENERIC_TYPENAME_UNSIGNED < STRTOI_GENERIC_TYPENAME t)

/-- The decimal digit character for a digit value below 10. -/
def decDigitChar (d : Nat) : Char := Char.ofNat (48 + d)

/-- Decimal text of a natural number, most significant digit first. -/
def natToDecimal (n : Nat) : List Char :=
  if n = 0 then ['0'] else (Nat.digits 10 n).reverse.map decDigitChar

/-- Decimal text of an integer: a `-` sign followed by the magnitude for
negative values. -/
def intToDecimal (v : Int) : List Char :=
  if v < 0 then '-' :: natToDecimal (-v).toNat else natToDecimal v.toNat

/-- `v` is representable in destination type `t`. -/
def inRange (t : CType) (v : Int) : Prop :=
  STRTOI_GENERIC_INTMIN t ≤ v ∧ v ≤ (STRTOI_GENERIC_INTMAX t : Int)

instance (t : CType) (v : Int) : Decidable (inRange t v) := by
  unfold inRange
  infer_instance


/-! ### Helper lemmas about the character-level primitives -/

lemma digitVal_decDigitChar {d : Nat} (h : d < 10) :
    digitVal (decDigitChar d) = some d := by
  interval_cases d <;> decide

lemma isSpaceC_decDigitChar {d : Nat} (h : d < 10) :
    isSpaceC (decDigitChar d) = false := by
  interval_cases d <;> decide

lemma decDigitChar_ne_minus {d : Nat} (h : d < 10) : decDigitChar d ≠ '-' := by
  interval_cases d <;> decide

lemma decDigitChar_ne_plus {d : Nat} (h : d < 10) : decDigitChar d ≠ '+' := by
  interval_cases d <;> decide

lemma decDigitChar_ne_zero {d : Nat} (h : d < 10) (h0 : d ≠ 0) :
    decDigitChar d ≠ '0' := by
  interval_cases d
  · exact absurd rfl h0
  all_goals decide

lemma skipWs_not_space {c : Char} (h : isSpaceC c = false) (l : List Char) :
    skipWs (c :: l) = c :: l := by
  simp [skipWs, h]

lemma skipWs_append {ws : List Char} (h : ∀ c ∈ ws, isSpaceC c = true)
    (l : List Char) : skipWs (ws ++ l) = skipWs l := by
  induction ws with
  | nil => rfl
  | cons c cs ih =>
    have hc : isSpaceC c = true := h c (by simp)
    simp only [List.cons_append, skipWs, hc, if_true]
    exact ih (fun x hx => h x (by simp [hx]))

lemma skipWs_all_space {ws : List Char} (h : ∀ c ∈ ws, isSpaceC c = true) :
    skipWs ws = [] := by
  have := skipWs_append h []
  simpa using this

lemma hasMinus_append_minus (l1 l2 : List Char) :
    hasMinus (l1 ++ '-' :: l2) = true := by
  induction l1 with
  | nil => simp [hasMinus]
  | cons c cs ih =>
    by_cases hc : c = '-' <;> simp [hasMinus, hc, ih]

lemma hasMinus_map_dec {L : List Nat} (h : ∀ d ∈ L, d < 10) :
    hasMinus (L.map decDigitChar) = false := by
  induction L with
  | nil => rfl
  | cons d t ih =>
    simp only [List.map_cons, hasMinus]
    rw [if_neg (decDigitChar_ne_minus (h d (by simp)))]
    exact ih (fun x hx => h x (by simp [hx]))

lemma parseDigits_map_decimal (L : List Nat) : ∀ acc : Nat, (∀ d ∈ L, d < 10) →
    parseDigits 10 (L.map decDigitChar) acc =
      (L.foldl (fun a d => a * 10 + d) acc, L.length, []) := by
  induction L with
  | nil => intro acc _; simp [parseDigits]
  | cons d t ih =>
    intro acc h
    have hd : d < 10 := h d (by simp)
    simp only [List.map_cons, parseDigits, digitVal_decDigitChar hd, if_pos hd,
      ih (acc * 10 + d) (fun x hx => h x (by simp [hx])), List.foldl_cons,
      List.length_cons]

lemma parseDigits_all_valid (b : Nat) (ds : List Char) : ∀ acc : Nat,
    (∀ c ∈ ds, isValidDigit b c = true) →
    (parseDigits b ds acc).2.1 = ds.length ∧ (parseDigits b ds acc).2.2 = [] := by
  induction ds with
  | nil => intro acc _; simp [parseDigits]
  | cons c cs ih =>
    intro acc h
    have hc := h c (by simp)
    cases hv : digitVal c with
    | none => rw [isValidDigit, hv] at hc; exact absurd hc (by simp)
    | some v =>
      rw [isValidDigit, hv] at hc
      have hvb : v < b := of_decide_eq_true hc
      have := ih (acc * b + v) (fun x hx => h x (by simp [hx]))
      simp only [parseDigits, hv, if_pos hvb, List.length_cons]
      exact ⟨by rw [this.1], this.2⟩

lemma foldl_reverse_ofDigits (L : List Nat) : ∀ acc : Nat,
    L.reverse.foldl (fun a d => a * 10 + d) acc =
      acc * 10 ^ L.length + Nat.ofDigits 10 L := by
  induction L with
  | nil => intro acc; simp
  | cons d t ih =>
    intro acc
    simp only [List.reverse_cons, List.foldl_append, ih, List.foldl_cons,
      List.foldl_nil, Nat.ofDigits_cons, List.length_cons, Nat.cast_id]
    ring

lemma natToDecimal_struct (n : Nat) (hn : n ≠ 0) :
    ∃ r rt, (Nat.digits 10 n).reverse = r :: rt ∧
      natToDecimal n = decDigitChar r :: rt.map decDigitChar ∧
      r < 10 ∧ r ≠ 0 ∧ (∀ d ∈ rt, d < 10) := by
  have hL : Nat.digits 10 n ≠ [] := Nat.digits_ne_nil_iff_ne_zero.mpr hn
  cases hR : (Nat.digits 10 n).reverse with
  | nil => exact absurd (List.reverse_eq_nil_iff.mp hR) hL
  | cons r rt =>
    have hmem : ∀ d ∈ r :: rt, d ∈ Nat.digits 10 n := by
      intro d hd
      have : d ∈ (Nat.digits 10 n).reverse := by rw [hR]; exact hd
      simpa using this
    have hlt : ∀ d ∈ r :: rt, d < 10 := fun d hd =>
      Nat.digits_lt_base (by norm_num) (hmem d hd)
    have hL2 : Nat.digits 10 n = rt.reverse ++ [r] := by
      have := congrArg List.reverse hR
      simpa using this
    have hr0 : r ≠ 0 := by
      have hgl := Nat.getLast_digit_ne_zero 10 hn
      have hlast : (Nat.digits 10 n).getLast hL = r := by
        have h1 := List.getLast_append_singleton (a := r) rt.reverse
        calc (Nat.digits 10 n).getLast hL
            = (rt.reverse ++ [r]).getLast (by simp) := by congr 1
          _ = r := h1
      rw [hlast] at hgl
      exact hgl
    refine ⟨r, rt, rfl, ?_, hlt r (by simp), hr0, fun d hd => hlt d (by simp [hd])⟩
    rw [natToDecimal, if_neg hn, hR]
    simp

lemma natToDecimal_pipeline (n : Nat) (hn : n ≠ 0) :
    skipWs (natToDecimal n) = natToDecimal n ∧
    takeSign (natToDecimal n) = (false, natToDecimal n) ∧
    resolveBase 0 (natToDecimal n) = (10, natToDecimal n) ∧
    parseDigits 10 (natToDecimal n) 0 = (n, (natToDecimal n).length, []) ∧
    hasMinus (natToDecimal n) = false := by
  obtain ⟨r, rt, hR, hEq, hr10, hr0, hrt⟩ := natToDecimal_struct n hn
  have hall : ∀ d ∈ r :: rt, d < 10 := by
    intro d hd
    rcases List.mem_cons.mp hd with h | h
    · rw [h]; exact hr10
    · exact hrt d h
  have hmap : natToDecimal n = (r :: rt).map decDigitChar := by
    rw [hEq]; simp
  refine ⟨?_, ?_, ?_, ?_, ?_⟩
  · rw [hEq]
    exact skipWs_not_space (isSpaceC_decDigitChar hr10) _
  · rw [hEq, takeSign]
    rw [if_neg (decDigitChar_ne_minus hr10), if_neg (decDigitChar_ne_plus hr10)]
  · have hhz : headIsZero (natToDecimal n) = false := by
      rw [hEq, headIsZero]
      simp [decDigitChar_ne_zero hr10 hr0]
    have hhex : hexHeaded (natToDecimal n) = false := by
      rw [hEq]
      cases rt with
      | nil => rfl
      | cons a t =>
        cases t with
        | nil => rfl
        | cons b t2 =>
          simp only [List.map_cons, hexHeaded, Bool.and_eq_true]
          simp [decDigitChar_ne_zero hr10 hr0]
    rw [resolveBase, if_neg (by simp [hhex]), if_pos rfl, hhz]
    simp
  · rw [hmap, parseDigits_map_decimal _ 0 hall]
    have h1 : (r :: rt).foldl (fun a d => a * 10 + d) 0 = n := by
      have : r :: rt = (Nat.digits 10 n).reverse := hR.symm
      rw [this, foldl_reverse_ofDigits]
      simp [Nat.ofDigits_digits]
    rw [h1]
    simp
  · rw [hmap]
    exact hasMinus_map_dec hall

/-! ### Behaviour of the modelled C library calls on specific text shapes -/

lemma strtoull_badBase {s : List Char} {base : Int}
    (hb : base ≠ 0 ∧ (base < 2 ∨ base > 36)) :
    strtoull s base = ⟨0, false, s, CErrno.einval⟩ := by
  rw [strtoull, if_pos hb]

lemma strtoll_badBase {s : List Char} {base : Int}
    (hb : base ≠ 0 ∧ (base < 2 ∨ base > 36)) :
    strtoll s base = ⟨0, false, s, CErrno.einval⟩ := by
  rw [strtoll, if_pos hb]

lemma natToDecimal_ne_nil (n : Nat) : natToDecimal n ≠ [] := by
  by_cases hn : n = 0
  · subst hn; decide
  · obtain ⟨r, rt, _, hEq, _⟩ := natToDecimal_struct n hn
    rw [hEq]; simp

lemma hasMinus_natToDecimal (n : Nat) : hasMinus (natToDecimal n) = false := by
  by_cases hn : n = 0
  · subst hn; decide
  · exact (natToDecimal_pipeline n hn).2.2.2.2

lemma strtoull_natToDecimal (n : Nat) (h : n ≤ ULLONG_MAX) :
    strtoull (natToDecimal n) 0 = ⟨(n : Int), true, [], CErrno.ok⟩ := by
  by_cases hn : n = 0
  · subst hn; decide
  · obtain ⟨hskip, hsign, hres, hpd, _⟩ := natToDecimal_pipeline n hn
    have hlen : (natToDecimal n).length ≠ 0 := by
      simpa using natToDecimal_ne_nil n
    simp [strtoull, hskip, hsign, hres, hpd, hlen, Nat.not_lt.mpr h]

lemma strtoll_natToDecimal (n : Nat) (h : n ≤ 9223372036854775807) :
    strtoll (natToDecimal n) 0 = ⟨(n : Int), true, [], CErrno.ok⟩ := by
  by_cases hn : n = 0
  · subst hn; decide
  · obtain ⟨hskip, hsign, hres, hpd, _⟩ := natToDecimal_pipeline n hn
    have hlen : (natToDecimal n).length ≠ 0 := by
      simpa using natToDecimal_ne_nil n
    simp [strtoll, hskip, hsign, hres, hpd, hlen, Nat.not_lt.mpr h]

lemma strtoll_negDecimal (m : Nat) (hm : m ≠ 0) (h : m ≤ 9223372036854775808) :
    strtoll ('-' :: natToDecimal m) 0 = ⟨-(m : Int), true, [], CErrno.ok⟩ := by
  obtain ⟨_, _, hres, hpd, _⟩ := natToDecimal_pipeline m hm
  have hskip : skipWs ('-' :: natToDecimal m) = '-' :: natToDecimal m :=
    skipWs_not_space (by decide) _
  have hsign : takeSign ('-' :: natToDecimal m) = (true, natToDecimal m) := by
    rw [takeSign, if_pos rfl]
  have hlen : (natToDecimal m).length ≠ 0 := by
    simpa using natToDecimal_ne_nil m
  simp [strtoll, hskip, hsign, hres, hpd, hlen, Nat.not_lt.mpr h]

lemma toULL_toLL_nat (v : Nat) (h : v ≤ ULLONG_MAX) :
    toULL (toLL (v : Int)) = v := by
  rw [ULLONG_MAX] at h
  unfold toULL toLL
  split_ifs <;> omega

lemma toULL_of_nonneg (v : Int) (h0 : 0 ≤ v) (h : v ≤ 18446744073709551615) :
    toULL v = v.toNat := by
  unfold toULL
  omega

/-! ### Behaviour of `strtoi_generic_func` -/

lemma func_unsigned_dec (v : Nat) (mn : Int) (mx : Nat) (tn : Nat)
    (htn : 127 < tn) (hv : v ≤ mx) (hmx : mx ≤ ULLONG_MAX) :
    strtoi_generic_func (natToDecimal v) mn mx tn 0 = ⟨0, some (toLL v)⟩ := by
  have hu : strtoull (natToDecimal v) 0 = ⟨(v : Int), true, [], CErrno.ok⟩ :=
    strtoull_natToDecimal v (le_trans hv hmx)
  have hnm : hasMinus (natToDecimal v) = false := hasMinus_natToDecimal v
  have htoull : toULL (toLL (v : Int)) = v := toULL_toLL_nat v (le_trans hv hmx)
  have htn0 : tn ≠ 0 := by omega
  simp [strtoi_generic_func, selRaw, STRTOI_GENERIC_TYPENAME_UNSIGNED,
    htn0, htn, hu, hnm, htoull, Nat.not_lt.mpr hv]

lemma func_signed_dec (v : Int) (mn : Int) (mx : Nat) (tn : Nat)
    (h0 : tn ≠ 0) (htn : ¬ 127 < tn) (hmn : mn ≤ v) (hmx : v ≤ (mx : Int))
    (hmnlb : -9223372036854775808 ≤ mn) (hmxub : mx ≤ 9223372036854775807) :
    strtoi_generic_func (intToDecimal v) mn mx tn 0 = ⟨0, some v⟩ := by
  have hs : strtoll (intToDecimal v) 0 = ⟨v, true, [], CErrno.ok⟩ := by
    by_cases hv : v < 0
    · rw [intToDecimal, if_pos hv]
      have hm0 : (-v).toNat ≠ 0 := by omega
      have hvb : (-v).toNat ≤ 9223372036854775808 := by omega
      rw [strtoll_negDecimal (-v).toNat hm0 hvb]
      congr 1
      omega
    · rw [intToDecimal, if_neg hv]
      have hvb : v.toNat ≤ 9223372036854775807 := by omega
      rw [strtoll_natToDecimal v.toNat hvb]
      congr 1
      omega
  have hcheck : ¬ (v < mn ∨ (0 < v ∧ mx < toULL v)) := by
    unfold toULL
    omega
  simp [strtoi_generic_func, selRaw, STRTOI_GENERIC_TYPENAME_UNSIGNED, h0, htn,
    hs, hcheck]

lemma func_einval (str : List Char) (mn : Int) (mx : Nat) (tn : Nat)
    (base : Int) (h0 : tn ≠ 0)
    (h : (selRaw tn str base).consumed = false ∨ (selRaw tn str base).rest ≠ []
      ∨ (selRaw tn str base).errno = CErrno.einval) :
    strtoi_generic_func str mn mx tn base = ⟨-EINVAL, none⟩ := by
  rw [strtoi_generic_func, if_neg h0]
  simp only [if_pos h]

lemma func_ret_cases (str : List Char) (mn : Int) (mx : Nat) (tn : Nat)
    (base : Int) :
    (strtoi_generic_func str mn mx tn base).ret = 0 ∨
    (strtoi_generic_func str mn mx tn base).ret = -ENOTSUP ∨
    (strtoi_generic_func str mn mx tn base).ret = -EINVAL ∨
    (strtoi_generic_func str mn mx tn base).ret = -ERANGE := by
  simp only [strtoi_generic_func]
  split_ifs <;> simp

/-! ### Behaviour of the `strtoi_base_generic` macro -/

lemma macro_of_func (str : List Char) (base : Int) (t : CType) (res : Int) :
    strtoi_base_generic str base t res =
      (let r := strtoi_generic_func str (STRTOI_GENERIC_INTMIN t)
        (STRTOI_GENERIC_INTMAX t) (STRTOI_GENERIC_TYPENAME t) base
      if 0 ≤ r.ret then (r.ret, castTo t (r.num.getD 0)) else (r.ret, res)) :=
  rfl

lemma macro_of_err (str : List Char) (base : Int) (t : CType) (res : Int)
    (e : Int) (he : e < 0)
    (h : strtoi_generic_func str (STRTOI_GENERIC_INTMIN t)
      (STRTOI_GENERIC_INTMAX t) (STRTOI_GENERIC_TYPENAME t) base = ⟨e, none⟩) :
    strtoi_base_generic str base t res = (e, res) := by
  rw [strtoi_base_generic, h]
  simp [not_le.mpr he]

lemma macro_of_ok (str : List Char) (base : Int) (t : CType) (res : Int)
    (v : Int)
    (h : strtoi_generic_func str (STRTOI_GENERIC_INTMIN t)
      (STRTOI_GENERIC_INTMAX t) (STRTOI_GENERIC_TYPENAME t) base = ⟨0, some v⟩) :
    strtoi_base_generic str base t res = (0, castTo t v) := by
  rw [strtoi_base_generic, h]
  simp

/-! ### Negative input into unsigned destinations -/

lemma resolveBase_of_valid (b : Nat) (ds : List Char) (hb2 : 2 ≤ b)
    (hb36 : b ≤ 36) (h : ∀ c ∈ ds, isValidDigit b c = true) :
    resolveBase b ds = (b, ds) := by
  rw [resolveBase]
  by_cases hb16 : b = 16
  · subst hb16
    have hhex : hexHeaded ds = false := by
      cases ds with
      | nil => rfl
      | cons c0 t0 =>
        cases t0 with
        | nil => rfl
        | cons c1 t1 =>
          cases t1 with
          | nil => rfl
          | cons c2 t2 =>
            have h1 := h c1 (by simp)
            have hx : c1 ≠ 'x' := by
              intro he; rw [he] at h1; exact absurd h1 (by decide)
            have hX : c1 ≠ 'X' := by
              intro he; rw [he] at h1; exact absurd h1 (by decide)
            simp [hexHeaded, hx, hX]
    rw [if_neg (by simp [hhex]), if_neg (by omega)]
  · have hc1 : ¬ ((b = 16 ∨ b = 0) ∧ hexHeaded ds = true) := by
      rintro ⟨h1 | h2, _⟩
      · exact hb16 h1
      · omega
    rw [if_neg hc1, if_neg (by omega)]

lemma strtoull_minus_digits (ws ds : List Char) (base : Int)
    (hws : ∀ c ∈ ws, isSpaceC c = true) (hds : ds ≠ [])
    (hb2 : 2 ≤ base) (hb36 : base ≤ 36)
    (hv : ∀ c ∈ ds, isValidDigit base.toNat c = true) :
    (strtoull (ws ++ '-' :: ds) base).consumed = true ∧
    (strtoull (ws ++ '-' :: ds) base).rest = [] ∧
    (strtoull (ws ++ '-' :: ds) base).errno ≠ CErrno.einval := by
  have hbad : ¬ (base ≠ 0 ∧ (base < 2 ∨ base > 36)) := by omega
  have hskip : skipWs (ws ++ '-' :: ds) = '-' :: ds := by
    rw [skipWs_append hws]
    exact skipWs_not_space (by decide) ds
  have hsign : takeSign ('-' :: ds) = (true, ds) := by
    rw [takeSign, if_pos rfl]
  have hres : resolveBase base.toNat ds = (base.toNat, ds) :=
    resolveBase_of_valid _ _ (by omega) (by omega) hv
  have hpd := parseDigits_all_valid base.toNat ds 0 hv
  have hlen : ds.length ≠ 0 := by simpa using hds
  by_cases hov : 18446744073709551615 < (parseDigits base.toNat ds 0).1 <;>
    simp [strtoull, hbad, hskip, hsign, hres, hpd.1, hpd.2, hlen, hov,
      ULLONG_MAX]

lemma func_minus_digits_erange (ws ds : List Char) (base : Int) (mn : Int)
    (mx : Nat) (tn : Nat) (htn : 127 < tn)
    (hws : ∀ c ∈ ws, isSpaceC c = true) (hds : ds ≠ [])
    (hb2 : 2 ≤ base) (hb36 : base ≤ 36)
    (hv : ∀ c ∈ ds, isValidDigit base.toNat c = true) :
    strtoi_generic_func (ws ++ '-' :: ds) mn mx tn base = ⟨-ERANGE, none⟩ := by
  obtain ⟨hc, hr, he⟩ := strtoull_minus_digits ws ds base hws hds hb2 hb36 hv
  have hmin : hasMinus (ws ++ '-' :: ds) = true := hasMinus_append_minus ws ds
  have htn0 : tn ≠ 0 := by omega
  cases herr : (strtoull (ws ++ '-' :: ds) base).errno with
  | einval => exact absurd herr he
  | erange =>
    simp [strtoi_generic_func, selRaw, STRTOI_GENERIC_TYPENAME_UNSIGNED, htn0,
      htn, hc, hr, herr]
  | ok =>
    simp [strtoi_generic_func, selRaw, STRTOI_GENERIC_TYPENAME_UNSIGNED, htn0,
      htn, hc, hr, herr, hmin]

lemma func_unsigned_minus_ne_zero (s : List Char) (mn : Int) (mx : Nat)
    (tn : Nat) (base : Int) (htn : 127 < tn) (hm : hasMinus s = true) :
    (strtoi_generic_func s mn mx tn base).ret ≠ 0 := by
  have htn0 : tn ≠ 0 := by omega
  simp only [strtoi_generic_func, STRTOI_GENERIC_TYPENAME_UNSIGNED,
    if_neg htn0]
  split_ifs <;> simp_all [ENOTSUP, EINVAL, ERANGE]

lemma macro_ret (str : List Char) (base : Int) (t : CType) (res : Int) :
    (strtoi_base_generic str base t res).1 =
      (strtoi_generic_func str (STRTOI_GENERIC_INTMIN t)
        (STRTOI_GENERIC_INTMAX t) (STRTOI_GENERIC_TYPENAME t) base).ret := by
  simp only [strtoi_base_generic]
  split_ifs <;> rfl

/-! ### Remaining shared helpers -/

lemma supported_tn {t : CType} (ht : isSupported t = true) :
    STRTOI_GENERIC_TYPENAME t ≠ 0 := by
  simpa [isSupported] using ht

lemma macro_enotsup (s : List Char) (base : Int) (t : CType) (res : Int)
    (h0 : STRTOI_GENERIC_TYPENAME t = 0) :
    strtoi_base_generic s base t res = (-ENOTSUP, res) := by
  refine macro_of_err s base t res (-ENOTSUP) (by decide) ?_
  rw [strtoi_generic_func, if_pos h0]

lemma resolveBase_nil (b : Nat) : (resolveBase b []).2 = [] := by
  rw [resolveBase]
  split_ifs <;> rfl

lemma strtoull_all_space (s : List Char) (base : Int)
    (h : ∀ c ∈ s, isSpaceC c = true) : (strtoull s base).consumed = false := by
  by_cases hb : base ≠ 0 ∧ (base < 2 ∨ base > 36)
  · simp [strtoull_badBase hb]
  · rw [strtoull, if_neg hb]
    simp [skipWs_all_space h, takeSign, resolveBase_nil, parseDigits]

lemma strtoll_all_space (s : List Char) (base : Int)
    (h : ∀ c ∈ s, isSpaceC c = true) : (strtoll s base).consumed = false := by
  by_cases hb : base ≠ 0 ∧ (base < 2 ∨ base > 36)
  · simp [strtoll_badBase hb]
  · rw [strtoll, if_neg hb]
    simp [skipWs_all_space h, takeSign, resolveBase_nil, parseDigits]

lemma selRaw_all_space (tn : Nat) (s : List Char) (base : Int)
    (h : ∀ c ∈ s, isSpaceC c = true) : (selRaw tn s base).consumed = false := by
  rw [selRaw]
  split_ifs
  · exact strtoull_all_space s base h
  · exact strtoll_all_space s base h

lemma macro_badBase (s : List Char) (base : Int) (t : CType) (res : Int)
    (h0 : STRTOI_GENERIC_TYPENAME t ≠ 0)
    (hb : base ≠ 0 ∧ (base < 2 ∨ base > 36)) :
    (strtoi_base_generic s base t res).1 = -EINVAL := by
  have hsel : (selRaw (STRTOI_GENERIC_TYPENAME t) s base).errno = CErrno.einval := by
    rw [selRaw]
    split_ifs <;> simp [strtoull_badBase hb, strtoll_badBase hb]
  rw [macro_ret, func_einval _ _ _ _ _ h0 (Or.inr (Or.inr hsel))]

lemma macro_res_of_neg (str : List Char) (base : Int) (t : CType) (res : Int)
    (h : (strtoi_generic_func str (STRTOI_GENERIC_INTMIN t)
      (STRTOI_GENERIC_INTMAX t) (STRTOI_GENERIC_TYPENAME t) base).ret < 0) :
    (strtoi_base_generic str base t res).2 = res := by
  simp only [strtoi_base_generic]
  rw [if_neg (not_le.mpr h)]

lemma round_trip_signed (t : CType) (v res : Int)
    (h0 : STRTOI_GENERIC_TYPENAME t ≠ 0)
    (htn : ¬ 127 < STRTOI_GENERIC_TYPENAME t)
    (hmin : STRTOI_GENERIC_INTMIN t ≤ v)
    (hmax : v ≤ (STRTOI_GENERIC_INTMAX t : Int))
    (hmnlb : -9223372036854775808 ≤ STRTOI_GENERIC_INTMIN t)
    (hmxub : STRTOI_GENERIC_INTMAX t ≤ 9223372036854775807)
    (hcast : castTo t v = v) :
    strtoi_base_generic (intToDecimal v) 0 t res = (0, v) := by
  have hfunc := func_signed_dec v (STRTOI_GENERIC_INTMIN t)
    (STRTOI_GENERIC_INTMAX t) (STRTOI_GENERIC_TYPENAME t) h0 htn hmin hmax
    hmnlb hmxub
  rw [macro_of_ok _ _ _ _ _ hfunc, hcast]

lemma round_trip_unsigned (t : CType) (v res : Int)
    (htn : 127 < STRTOI_GENERIC_TYPENAME t)
    (h0 : 0 ≤ v)
    (hmax : v ≤ (STRTOI_GENERIC_INTMAX t : Int))
    (hmxub : STRTOI_GENERIC_INTMAX t ≤ ULLONG_MAX)
    (hcast : castTo t (toLL (v.toNat : Int)) = v) :
    strtoi_base_generic (intToDecimal v) 0 t res = (0, v) := by
  have hdec : intToDecimal v = natToDecimal v.toNat := by
    rw [intToDecimal, if_neg (by omega)]
  have hfunc := func_unsigned_dec v.toNat (STRTOI_GENERIC_INTMIN t)
    (STRTOI_GENERIC_INTMAX t) (STRTOI_GENERIC_TYPENAME t) htn (by omega) hmxub
  rw [hdec, macro_of_ok _ _ _ _ _ hfunc, hcast]

/-! ### The claims -/

/-- Claim C1, counterexample to the claim as stated: the string consisting of
a bare `-` (which begins with `-` followed by zero digits) parsed into an
8-bit unsigned destination returns `-EINVAL` (invalid-format, because
`strtoull` converts no digits), not the out-of-range error the claim
requires for every such string. -/
theorem claim_C1_counterexample :
    (strtoi_base_generic ['-'] 10 CType.uchar 0).1 = -EINVAL ∧
    (strtoi_base_generic ['-'] 10 CType.uchar 0).1 ≠ -ERANGE := by
  decide

/-- Claim C1 (amended): for every unsigned destination type, (1) an input
containing a `-` character never parses successfully, and (2) when the input
is optional whitespace, then `-`, then one or more digits valid for the
given base (base in `[2, 36]`) and nothing else, the parse returns
`-ERANGE` — even though the underlying `strtoull` would negate-and-wrap the
value.  (A `-` not followed by a full run of digits yields `-EINVAL`
instead, per the counterexample.) -/
theorem claim_C1_amended :
    (∀ (t : CType) (s : List Char) (base res : Int),
      isUnsignedType t = true → hasMinus s = true →
      (strtoi_base_generic s base t res).1 ≠ 0) ∧
    (∀ (t : CType) (ws ds : List Char) (base : Int) (res : Int),
      isUnsignedType t = true → (∀ c ∈ ws, isSpaceC c = true) → ds ≠ [] →
      2 ≤ base → base ≤ 36 →
      (∀ c ∈ ds, isValidDigit base.toNat c = true) →
      (strtoi_base_generic (ws ++ '-' :: ds) base t res).1 = -ERANGE) := by
  constructor
  · intro t s base res ht hm
    have htn : 127 < STRTOI_GENERIC_TYPENAME t := by
      simpa [isUnsignedType, STRTOI_GENERIC_TYPENAME_UNSIGNED] using ht
    rw [macro_ret]
    exact func_unsigned_minus_ne_zero s _ _ _ base htn hm
  · intro t ws ds base res ht hws hds hb2 hb36 hv
    have htn : 127 < STRTOI_GENERIC_TYPENAME t := by
      simpa [isUnsignedType, STRTOI_GENERIC_TYPENAME_UNSIGNED] using ht
    rw [macro_ret,
      func_minus_digits_erange ws ds base _ _ _ htn hws hds hb2 hb36 hv]

/-- Witness for the amended claim C1 at a concrete input: parsing the string
consisting of a space, a minus sign and the digits 1 2 with base 10 into an
unsigned char destination returns `-ERANGE`. -/
theorem claim_C1_witness :
    isUnsignedType CType.uchar = true ∧
    (strtoi_base_generic ([' '] ++ '-' :: ['1', '2']) 10 CType.uchar 0).1
      = -ERANGE :=
  ⟨by decide, claim_C1_amended.2 CType.uchar [' '] ['1', '2'] 10 0 (by decide)
    (by decide) (by decide) (by decide) (by decide) (by decide)⟩

/-- Claim C2: for every supported destination type and every value
representable in it, formatting the value as decimal text and parsing it back
with base 0 succeeds and stores exactly that value. -/
theorem claim_C2_round_trip (t : CType) (v : Int) (res : Int)
    (ht : isSupported t = true) (hv : inRange t v) :
    strtoi_base_generic (intToDecimal v) 0 t res = (0, v) := by
  obtain ⟨hmin, hmax⟩ := hv
  cases t with
  | char => exact absurd ht (by decide)
  | other => exact absurd ht (by decide)
  | schar =>
    have h1 : (-128 : Int) ≤ v := hmin
    have h2 : v ≤ (127 : Int) := by exact_mod_cast hmax
    exact round_trip_signed _ v res (by decide) (by decide) hmin hmax
      (by decide) (by decide) (by simp only [castTo, wrapS]; split_ifs <;> omega)
  | sshort =>
    have h1 : (-32768 : Int) ≤ v := hmin
    have h2 : v ≤ (32767 : Int) := by exact_mod_cast hmax
    exact round_trip_signed _ v res (by decide) (by decide) hmin hmax
      (by decide) (by decide) (by simp only [castTo, wrapS]; split_ifs <;> omega)
  | sint =>
    have h1 : (-2147483648 : Int) ≤ v := hmin
    have h2 : v ≤ (2147483647 : Int) := by exact_mod_cast hmax
    exact round_trip_signed _ v res (by decide) (by decide) hmin hmax
      (by decide) (by decide) (by simp only [castTo, wrapS]; split_ifs <;> omega)
  | slong =>
    have h1 : (-9223372036854775808 : Int) ≤ v := hmin
    have h2 : v ≤ (9223372036854775807 : Int) := by exact_mod_cast hmax
    exact round_trip_signed _ v res (by decide) (by decide) hmin hmax
      (by decide) (by decide) (by simp only [castTo, wrapS]; split_ifs <;> omega)
  | sllong =>
    have h1 : (-9223372036854775808 : Int) ≤ v := hmin
    have h2 : v ≤ (9223372036854775807 : Int) := by exact_mod_cast hmax
    exact round_trip_signed _ v res (by decide) (by decide) hmin hmax
      (by decide) (by decide) (by simp only [castTo, wrapS]; split_ifs <;> omega)
  | uchar =>
    have h1 : (0 : Int) ≤ v := hmin
    have h2 : v ≤ (255 : Int) := by exact_mod_cast hmax
    exact round_trip_unsigned _ v res (by decide) h1 hmax (by decide)
      (by simp only [castTo, wrapU, toLL]; split_ifs <;> omega)
  | ushort =>
    have h1 : (0 : Int) ≤ v := hmin
    have h2 : v ≤ (65535 : Int) := by exact_mod_cast hmax
    exact round_trip_unsigned _ v res (by decide) h1 hmax (by decide)
      (by simp only [castTo, wrapU, toLL]; split_ifs <;> omega)
  | uint =>
    have h1 : (0 : Int) ≤ v := hmin
    have h2 : v ≤ (4294967295 : Int) := by exact_mod_cast hmax
    exact round_trip_unsigned _ v res (by decide) h1 hmax (by decide)
      (by simp only [castTo, wrapU, toLL]; split_ifs <;> omega)
  | ulong =>
    have h1 : (0 : Int) ≤ v := hmin
    have h2 : v ≤ (18446744073709551615 : Int) := by exact_mod_cast hmax
    exact round_trip_unsigned _ v res (by decide) h1 hmax (by decide)
      (by simp only [castTo, wrapU, toLL]; split_ifs <;> omega)
  | ullong =>
    have h1 : (0 : Int) ≤ v := hmin
    have h2 : v ≤ (18446744073709551615 : Int) := by exact_mod_cast hmax
    exact round_trip_unsigned _ v res (by decide) h1 hmax (by decide)
      (by simp only [castTo, wrapU, toLL]; split_ifs <;> omega)

/-- Witness for claim C2 at a concrete input: the value -128 in a signed
char destination round-trips through its decimal text. -/
theorem claim_C2_witness :
    isSupported CType.schar = true ∧ inRange CType.schar (-128) ∧
    strtoi_base_generic (intToDecimal (-128)) 0 CType.schar 0 = (0, -128) :=
  ⟨by decide, by decide,
    claim_C2_round_trip CType.schar (-128) 0 (by decide) (by decide)⟩

/-- Claim C3: for every supported destination type, a base outside
`{0} ∪ [2, 36]` makes the call return `-EINVAL` regardless of the text
content (`-EINVAL` is how the code reports an unsupported base: its own
documentation files it under "any other parsing error", and the underlying
parser fails with `errno = EINVAL` before looking at the text). -/
theorem claim_C3_unsupported_base (t : CType) (s : List Char) (base : Int)
    (res : Int) (ht : isSupported t = true)
    (hb : base ≠ 0 ∧ (base < 2 ∨ base > 36)) :
    (strtoi_base_generic s base t res).1 = -EINVAL :=
  macro_badBase s base t res (supported_tn ht) hb

/-- Witness for claim C3 at a concrete input: base 37 with an ordinary digit
string and a supported unsigned destination. -/
theorem claim_C3_witness :
    isSupported CType.uint = true ∧
    ((37 : Int) ≠ 0 ∧ ((37 : Int) < 2 ∨ (37 : Int) > 36)) ∧
    (strtoi_base_generic ['9'] 37 CType.uint 5).1 = -EINVAL :=
  ⟨by decide, by decide,
    claim_C3_unsupported_base CType.uint ['9'] 37 5 (by decide) (by decide)⟩

/-- Claim C4: the 8-bit boundary cases, parsed with base 0 (the
`strtoi_generic` macro): 255 fits an unsigned char, 256 does not; -128 and
127 fit a signed char, -129 and 128 do not. -/
theorem claim_C4_eight_bit_bounds :
    strtoi_generic ['2', '5', '5'] CType.uchar 0 = (0, 255) ∧
    strtoi_generic ['2', '5', '6'] CType.uchar 0 = (-ERANGE, 0) ∧
    strtoi_generic ['-', '1', '2', '8'] CType.schar 0 = (0, -128) ∧
    strtoi_generic ['-', '1', '2', '9'] CType.schar 0 = (-ERANGE, 0) ∧
    strtoi_generic ['1', '2', '7'] CType.schar 0 = (0, 127) ∧
    strtoi_generic ['1', '2', '8'] CType.schar 0 = (-ERANGE, 0) := by
  decide

/-- Claim C5: for every supported destination type, the empty string, a
whitespace-only string, any string from which the underlying parser converts
no valid digits (concretely the string a b c under base 10), and text with
trailing characters after the numeric prefix (concretely the string
1 2 3 a b c) all return `-EINVAL` (invalid-format); more generally, whenever
the underlying parser leaves unconsumed characters, the call never reports
success. -/
theorem claim_C5_invalid_format :
    (∀ (t : CType) (base res : Int), isSupported t = true →
      (strtoi_base_generic [] base t res).1 = -EINVAL) ∧
    (∀ (t : CType) (s : List Char) (base res : Int), isSupported t = true →
      (∀ c ∈ s, isSpaceC c = true) →
      (strtoi_base_generic s base t res).1 = -EINVAL) ∧
    (∀ (t : CType) (s : List Char) (base res : Int), isSupported t = true →
      (selRaw (STRTOI_GENERIC_TYPENAME t) s base).consumed = false →
      (strtoi_base_generic s base t res).1 = -EINVAL) ∧
    (∀ (t : CType) (res : Int), isSupported t = true →
      (strtoi_base_generic ['a', 'b', 'c'] 10 t res).1 = -EINVAL) ∧
    (∀ (t : CType) (res : Int), isSupported t = true →
      (strtoi_base_generic ['1', '2', '3', 'a', 'b', 'c'] 0 t res).1
        = -EINVAL) ∧
    (∀ (t : CType) (s : List Char) (base res : Int), isSupported t = true →
      (selRaw (STRTOI_GENERIC_TYPENAME t) s base).consumed = true →
      (selRaw (STRTOI_GENERIC_TYPENAME t) s base).rest ≠ [] →
      (strtoi_base_generic s base t res).1 ≠ 0) := by
  refine ⟨?_, ?_, ?_, ?_, ?_, ?_⟩
  · intro t base res ht
    have h0 := supported_tn ht
    have hcons : (selRaw (STRTOI_GENERIC_TYPENAME t) [] base).consumed = false :=
      selRaw_all_space _ [] base (by simp)
    rw [macro_ret, func_einval _ _ _ _ _ h0 (Or.inl hcons)]
  · intro t s base res ht hsp
    have h0 := supported_tn ht
    have hcons : (selRaw (STRTOI_GENERIC_TYPENAME t) s base).consumed = false :=
      selRaw_all_space _ s base hsp
    rw [macro_ret, func_einval _ _ _ _ _ h0 (Or.inl hcons)]
  · intro t s base res ht hcons
    have h0 := supported_tn ht
    rw [macro_ret, func_einval _ _ _ _ _ h0 (Or.inl hcons)]
  · intro t res ht
    rw [macro_ret]
    cases t <;> first
      | exact absurd ht (by decide)
      | decide
  · intro t res ht
    rw [macro_ret]
    cases t <;> first
      | exact absurd ht (by decide)
      | decide
  · intro t s base res ht _ hrest
    have h0 := supported_tn ht
    rw [macro_ret, func_einval _ _ _ _ _ h0 (Or.inr (Or.inl hrest))]
    decide

/-- Witness for claim C5 at a concrete input: the empty string into a
signed int destination with base 10. -/
theorem claim_C5_witness :
    isSupported CType.sint = true ∧
    (strtoi_base_generic [] 10 CType.sint 4).1 = -EINVAL :=
  ⟨by decide, claim_C5_invalid_format.1 CType.sint 10 4 (by decide)⟩

/-- Claim C6: every call produces exactly one of success, `-ENOTSUP`,
`-EINVAL`, `-ERANGE`; an unsupported type wins over everything, an
unsupported base (with a supported type) yields `-EINVAL` whatever the text,
unconsumed trailing text yields `-EINVAL` even when the 64-bit accumulator
also overflowed or the value is out of destination range; concretely, a
26-nines number followed by an `x` overflows the accumulator
(`errno = ERANGE`) yet returns `-EINVAL`, not `-ERANGE`. -/
theorem claim_C6_outcome_priority :
    (∀ (t : CType) (s : List Char) (base res : Int),
      (strtoi_base_generic s base t res).1 = 0 ∨
      (strtoi_base_generic s base t res).1 = -ENOTSUP ∨
      (strtoi_base_generic s base t res).1 = -EINVAL ∨
      (strtoi_base_generic s base t res).1 = -ERANGE) ∧
    (∀ (t : CType) (s : List Char) (base res : Int), isSupported t = false →
      (strtoi_base_generic s base t res).1 = -ENOTSUP) ∧
    (∀ (t : CType) (s : List Char) (base res : Int), isSupported t = true →
      (base ≠ 0 ∧ (base < 2 ∨ base > 36)) →
      (strtoi_base_generic s base t res).1 = -EINVAL) ∧
    (∀ (t : CType) (s : List Char) (base res : Int), isSupported t = true →
      (selRaw (STRTOI_GENERIC_TYPENAME t) s base).rest ≠ [] →
      (strtoi_base_generic s base t res).1 = -EINVAL) ∧
    ((strtoll (List.replicate 26 '9' ++ ['x']) 10).errno = CErrno.erange ∧
      (strtoi_base_generic (List.replicate 26 '9' ++ ['x']) 10 CType.sllong
        0).1 = -EINVAL) := by
  refine ⟨?_, ?_, ?_, ?_, by decide, by decide⟩
  · intro t s base res
    rw [macro_ret]
    exact func_ret_cases s _ _ _ base
  · intro t s base res ht
    have h0 : STRTOI_GENERIC_TYPENAME t = 0 := by
      by_contra h
      simp [isSupported, h] at ht
    rw [macro_enotsup s base t res h0]
  · intro t s base res ht hb
    exact macro_badBase s base t res (supported_tn ht) hb
  · intro t s base res ht hrest
    rw [macro_ret, func_einval _ _ _ _ _ (supported_tn ht)
      (Or.inr (Or.inl hrest))]

/-- Witness for claim C6 at a concrete input: base 1 (invalid) with a
supported unsigned destination returns `-EINVAL` for a digit string. -/
theorem claim_C6_witness :
    isSupported CType.uchar = true ∧
    ((1 : Int) ≠ 0 ∧ ((1 : Int) < 2 ∨ (1 : Int) > 36)) ∧
    (strtoi_base_generic ['7'] 1 CType.uchar 0).1 = -EINVAL :=
  ⟨by decide, by decide,
    claim_C6_outcome_priority.2.2.1 CType.uchar ['7'] 1 0 (by decide)
      (by decide)⟩

/-- Claim C7: a destination type the dispatch does not recognise returns
`-ENOTSUP` with `*res` untouched, for every string and base — the result
does not depend on the text or the base at all. -/
theorem claim_C7_unsupported_type (t : CType) (s : List Char) (base : Int)
    (res : Int) (ht : isSupported t = false) :
    strtoi_base_generic s base t res = (-ENOTSUP, res) := by
  have h0 : STRTOI_GENERIC_TYPENAME t = 0 := by
    by_contra h
    simp [isSupported, h] at ht
  exact macro_enotsup s base t res h0

/-- Witness for claim C7 at a concrete unsupported type (the `default:`
association), string and base. -/
theorem claim_C7_witness :
    isSupported CType.other = false ∧
    strtoi_base_generic ['5'] 10 CType.other 3 = (-ENOTSUP, 3) :=
  ⟨by decide, claim_C7_unsupported_type CType.other ['5'] 10 3 (by decide)⟩

/-- Claim C8, counterexample to the claim as stated: for the signed char
destination and input 9 9 9 a (base 10), the accumulator from `strtoll` is
999, which is positive and exceeds the destination maximum 127 in the
unsigned 64-bit domain — yet the parse returns `-EINVAL` (trailing
character), not `-ERANGE`, so "returns out-of-range exactly when" fails. -/
theorem claim_C8_counterexample :
    ¬ (((strtoi_base_generic ['9', '9', '9', 'a'] 10 CType.schar 0).1
        = -ERANGE) ↔
      ((strtoll ['9', '9', '9', 'a'] 10).ret
          < STRTOI_GENERIC_INTMIN CType.schar ∨
        (0 < (strtoll ['9', '9', '9', 'a'] 10).ret ∧
          STRTOI_GENERIC_INTMAX CType.schar
            < toULL (strtoll ['9', '9', '9', 'a'] 10).ret))) := by
  decide

/-- Claim C8 (amended): for every signed supported destination type,
provided the 64-bit parse itself consumed the entire string and finished
with `errno = 0` (no 64-bit overflow), the call returns `-ERANGE` exactly
when the accumulator is below the destination minimum, or is positive and —
compared as unsigned 64-bit — exceeds the destination maximum; otherwise the
accumulator is accepted and cast into the destination type. -/
theorem claim_C8_amended (t : CType) (s : List Char) (base : Int) (res : Int)
    (hts : isSupported t = true) (htu : isUnsignedType t = false)
    (hc : (strtoll s base).consumed = true)
    (hr : (strtoll s base).rest = [])
    (he : (strtoll s base).errno = CErrno.ok) :
    ((strtoi_base_generic s base t res).1 = -ERANGE ↔
      ((strtoll s base).ret < STRTOI_GENERIC_INTMIN t ∨
        (0 < (strtoll s base).ret ∧
          STRTOI_GENERIC_INTMAX t < toULL (strtoll s base).ret))) ∧
    (¬ ((strtoll s base).ret < STRTOI_GENERIC_INTMIN t ∨
        (0 < (strtoll s base).ret ∧
          STRTOI_GENERIC_INTMAX t < toULL (strtoll s base).ret)) →
      strtoi_base_generic s base t res = (0, castTo t (strtoll s base).ret)) := by
  have h0 : STRTOI_GENERIC_TYPENAME t ≠ 0 := supported_tn hts
  have htn : ¬ STRTOI_GENERIC_TYPENAME_UNSIGNED < STRTOI_GENERIC_TYPENAME t := by
    simpa [isUnsignedType] using htu
  have hsel : selRaw (STRTOI_GENERIC_TYPENAME t) s base = strtoll s base := by
    rw [selRaw, if_neg htn]
  have hfunc : strtoi_generic_func s (STRTOI_GENERIC_INTMIN t)
      (STRTOI_GENERIC_INTMAX t) (STRTOI_GENERIC_TYPENAME t) base =
      (if (strtoll s base).ret < STRTOI_GENERIC_INTMIN t ∨
          (0 < (strtoll s base).ret ∧
            STRTOI_GENERIC_INTMAX t < toULL (strtoll s base).ret)
        then ⟨-ERANGE, none⟩ else ⟨0, some (strtoll s base).ret⟩) := by
    rw [strtoi_generic_func, if_neg h0]
    simp [hsel, hc, hr, he, htn]
  constructor
  · rw [macro_ret, hfunc]
    by_cases hcond : (strtoll s base).ret < STRTOI_GENERIC_INTMIN t ∨
        (0 < (strtoll s base).ret ∧
          STRTOI_GENERIC_INTMAX t < toULL (strtoll s base).ret)
    · rw [if_pos hcond]
      exact iff_of_true rfl hcond
    · rw [if_neg hcond]
      exact iff_of_false (by show ¬ ((0 : Int) = -ERANGE); decide) hcond
  · intro hcond
    exact macro_of_ok s base t res _ (by rw [hfunc, if_neg hcond])

/-- Witness for the amended claim C8 at a concrete input: -129 into a
signed char destination is below the minimum -128, so the call returns
`-ERANGE`. -/
theorem claim_C8_witness :
    (strtoi_base_generic ['-', '1', '2', '9'] 10 CType.schar 0).1 = -ERANGE :=
  ((claim_C8_amended CType.schar ['-', '1', '2', '9'] 10 0 (by decide)
    (by decide) (by decide) (by decide) (by decide)).1).mpr (by decide)

/-- Claim C9: whenever the call returns a non-zero error code, the caller's
`*res` is left unchanged (the result is stored only on return value 0). -/
theorem claim_C9_res_unchanged (t : CType) (s : List Char) (base : Int)
    (res : Int) (h : (strtoi_base_generic s base t res).1 ≠ 0) :
    (strtoi_base_generic s base t res).2 = res := by
  have hr := macro_ret s base t res
  rcases func_ret_cases s (STRTOI_GENERIC_INTMIN t) (STRTOI_GENERIC_INTMAX t)
      (STRTOI_GENERIC_TYPENAME t) base with h0 | he | he | he
  · rw [hr, h0] at h
    exact absurd rfl h
  all_goals exact macro_res_of_neg s base t res (by rw [he]; decide)

/-- Witness for claim C9 at a concrete input: the empty string errors out
and leaves the destination value 7 in place. -/
theorem claim_C9_witness :
    (strtoi_base_generic [] 10 CType.uchar 7).1 ≠ 0 ∧
    (strtoi_base_generic [] 10 CType.uchar 7).2 = 7 :=
  ⟨by decide, claim_C9_res_unchanged CType.uchar [] 10 7 (by decide)⟩

/-- Claim C10: plain `char` (distinct in C from `signed char` and
`unsigned char`) is not in the `STRTOI_GENERIC_TYPENAME` dispatch list, so
parsing into it always returns `-ENOTSUP` with `*res` untouched — even
though the `STRTOI_GENERIC_INTMIN`/`INTMAX` descriptors do define bounds
(-128 and 127) for plain `char`. -/
theorem claim_C10_plain_char :
    (∀ (s : List Char) (base res : Int),
      strtoi_base_generic s base CType.char res = (-ENOTSUP, res)) ∧
    STRTOI_GENERIC_TYPENAME CType.char = 0 ∧
    STRTOI_GENERIC_INTMIN CType.char = -128 ∧
    STRTOI_GENERIC_INTMAX CType.char = 127 := by
  refine ⟨?_, rfl, rfl, rfl⟩
  intro s base res
  exact macro_enotsup s base CType.char res rfl
